import Mathlib

/-!
Shallow embedding of the RFC-1662-style framing codec of datvideo
(src/main.cc) and proofs about it.

Bytes are modelled as `Nat` values; the `uint8_t`/`uint16_t` conversions of
the C++ code appear as explicit `% 256` / `% 65536` where the code performs
them.  `GenerateCrc16` is declared in src/datvideo/crc16.h but its
implementation file is not under src/, so the encoder and decoder are kept
parametric in the checksum function `crc : List Nat → Nat`; a concrete
model is provided for witnesses.
-/

namespace Datvideo

/-- The delimiter byte to separate frames (`kRfc1662Delimiter`, src/main.cc line 42). -/
def kRfc1662Delimiter : Nat := 0x7e

/-- The escape byte to escape delimiters and escapes themselves
(`kRfc1662Escape`, src/main.cc line 45). -/
def kRfc1662Escape : Nat := 0x7d

/-- The maximum size for a given frame (`kMaxFrameSize`, src/main.cc line 103). -/
def kMaxFrameSize : Nat := 1024 * 1024

/-- Modelled from the spec: `GenerateCrc16` is declared in
src/datvideo/crc16.h but its implementation (crc16.cc) is not under src/.
The spec (sections 4.1 and 6) fixes only that it is a deterministic, pure
16-bit CRC over the unescaped payload bytes, defined for any byte sequence
including the empty one; this model is a standard bitwise CRC-16 with the
CCITT polynomial 0x1021 and initial value 0xffff.  It is used to
instantiate the `crc` parameter of the codec in concrete witnesses. -/
def GenerateCrc16 (data : List Nat) : Nat :=
  data.foldl
    (fun crc b =>
      (List.range 8).foldl
        (fun c _ =>
          if c &&& 0x8000 = 0 then (c <<< 1) % 65536
          else ((c <<< 1) ^^^ 0x1021) % 65536)
        (crc ^^^ ((b % 256) <<< 8)))
    0xffff

/-- Inserts the supplied byte into the frame, escaping if necessary
(`InsertRfc1662EscapedByte`, src/main.cc lines 50-56): if the byte equals
the delimiter or the escape it first pushes the escape byte, then pushes
the byte itself unchanged. -/
def InsertRfc1662EscapedByte (byte : Nat) (frame : List Nat) : List Nat :=
  (if byte = kRfc1662Delimiter ∨ byte = kRfc1662Escape
    then frame ++ [kRfc1662Escape] else frame) ++ [byte]

/-- Encodes the supplied chunk into an RFC1662 frame (`EncodeRfc1662Frame`,
src/main.cc lines 61-73): a delimiter, the escaped chunk bytes, the escaped
CRC high then low byte, and a closing delimiter.  `% 65536` models the
`uint16_t` return type of `GenerateCrc16`; `% 256` models the `uint8_t`
parameter conversion at the two `InsertRfc1662EscapedByte` calls. -/
def EncodeRfc1662Frame (crc : List Nat → Nat) (chunk : List Nat) : List Nat :=
  let frame0 := [kRfc1662Delimiter]
  let frame1 := chunk.foldl (fun f b => InsertRfc1662EscapedByte b f) frame0
  let c := crc chunk % 65536
  let frame2 := InsertRfc1662EscapedByte ((c >>> 8) % 256) frame1
  let frame3 := InsertRfc1662EscapedByte (c % 256) frame2
  frame3 ++ [kRfc1662Delimiter]

/-- The receive states of `DecodeFile` (src/main.cc lines 105-109). -/
inductive ReceiveState
  | Reset
  | InFrame
  | InEscape
  deriving DecidableEq

/-- The reasons for which `DecodeFile` discards accumulated bytes, one per
`LOGW` call in src/main.cc (lines 135, 138, 146, 157). -/
inductive DiscardReason
  | shortFrame
  | crcMismatch
  | longFrame
  | invalidEscape
  deriving DecidableEq

/-- One observable output of the decoder: a checksum-valid payload written
to the output file, or a discard diagnostic. -/
inductive DecodeResult
  | validFrame (payload : List Nat)
  | discarded (reason : DiscardReason)
  deriving DecidableEq

/-- Whether a decode result is a valid frame. -/
def DecodeResult.isValid : DecodeResult → Bool
  | DecodeResult.validFrame _ => true
  | DecodeResult.discarded _ => false

/-- The mutable state of the `DecodeFile` loop: the receive state and the
accumulation buffer `frame` (src/main.cc lines 113-114). -/
structure DecoderState where
  receive_state : ReceiveState
  frame : List Nat
  deriving DecidableEq

/-- One iteration of the `DecodeFile` receive loop (src/main.cc lines
115-162) on a single input byte, returning the next state and the output
event (if any) of this iteration.  The received CRC is read big-endian from
the last two buffered bytes exactly as the source does
(`(uint16(frame[n-2]) << 8) | frame[n-1]`), and the computed CRC is taken
over the buffer without those two bytes; `% 65536` models the `uint16_t`
type of both. -/
def decodeByte (crc : List Nat → Nat) (s : DecoderState) (byte : Nat) :
    DecoderState × Option DecodeResult :=
  match s.receive_state with
  | ReceiveState.Reset =>
      if byte = kRfc1662Delimiter then (⟨ReceiveState.InFrame, s.frame⟩, none)
      else (s, none)
  | ReceiveState.InFrame =>
      if byte = kRfc1662Delimiter then
        if 2 ≤ s.frame.length then
          if (s.frame.getD (s.frame.length - 2) 0) <<< 8 |||
              (s.frame.getD (s.frame.length - 1) 0) =
              crc (s.frame.take (s.frame.length - 2)) % 65536 then
            (⟨ReceiveState.Reset, []⟩,
              some (DecodeResult.validFrame (s.frame.take (s.frame.length - 2))))
          else
            (⟨ReceiveState.Reset, []⟩,
              some (DecodeResult.discarded DiscardReason.crcMismatch))
        else
          (⟨ReceiveState.Reset, []⟩,
            some (DecodeResult.discarded DiscardReason.shortFrame))
      else if byte = kRfc1662Escape then
        (⟨ReceiveState.InEscape, s.frame⟩, none)
      else if kMaxFrameSize < s.frame.length then
        (⟨ReceiveState.Reset, []⟩,
          some (DecodeResult.discarded DiscardReason.longFrame))
      else
        (⟨ReceiveState.InFrame, s.frame ++ [byte]⟩, none)
  | ReceiveState.InEscape =>
      if byte = kRfc1662Delimiter ∨ byte = kRfc1662Escape then
        (⟨ReceiveState.InFrame, s.frame ++ [byte]⟩, none)
      else
        (⟨ReceiveState.Reset, []⟩,
          some (DecodeResult.discarded DiscardReason.invalidEscape))

/-- Runs the `DecodeFile` loop from state `s` over a byte stream, returning
the final state and the list of output events in order. -/
def decodeSteps (crc : List Nat → Nat) (s : DecoderState) :
    List Nat → DecoderState × List DecodeResult
  | [] => (s, [])
  | byte :: rest =>
      match decodeByte crc s byte with
      | (s1, ev) =>
        match decodeSteps crc s1 rest with
        | (s2, evs) => (s2, ev.toList ++ evs)

/-- `DecodeFile` (src/main.cc lines 101-165): starts in `Reset` with an
empty buffer, processes the whole stream, and always returns `true`. -/
def DecodeFile (crc : List Nat → Nat) (stream : List Nat) :
    List DecodeResult × Bool :=
  ((decodeSteps crc ⟨ReceiveState.Reset, []⟩ stream).2, true)

/-- The bytes that `InsertRfc1662EscapedByte` appends for one input byte. -/
def escBytes (b : Nat) : List Nat :=
  if b = kRfc1662Delimiter ∨ b = kRfc1662Escape then [kRfc1662Escape, b] else [b]

/-- The byte-stuffed image of a whole byte list. -/
def escList : List Nat → List Nat
  | [] => []
  | b :: t => escBytes b ++ escList t

/-- Count of bytes that need escaping (delimiter- or escape-valued). -/
def specialCount (l : List Nat) : Nat :=
  l.countP (fun b => b == kRfc1662Delimiter || b == kRfc1662Escape)

/-- Frame layout as the spec's sections 4.2 and 6 describe it, written from
the spec's words for the refinement claim about the encoder: emit the
delimiter; each payload byte in order, escaped; the 16-bit checksum of the
original payload, high byte then low byte, each escaped; the delimiter. -/
def encodeSpecFrame (crc : List Nat → Nat) (payload : List Nat) : List Nat :=
  let c := crc payload % 65536
  [kRfc1662Delimiter] ++ escList payload ++ escBytes (c / 256) ++ escBytes (c % 256)
    ++ [kRfc1662Delimiter]

lemma insert_eq (b : Nat) (f : List Nat) :
    InsertRfc1662EscapedByte b f = f ++ escBytes b := by
  unfold InsertRfc1662EscapedByte escBytes
  split <;> simp

lemma foldl_insert (chunk : List Nat) :
    ∀ acc : List Nat,
      chunk.foldl (fun f b => InsertRfc1662EscapedByte b f) acc = acc ++ escList chunk := by
  induction chunk with
  | nil => intro acc; simp [escList]
  | cons b t ih =>
      intro acc
      rw [List.foldl_cons, ih, insert_eq]
      simp [escList, List.append_assoc]

lemma escList_append (a b : List Nat) : escList (a ++ b) = escList a ++ escList b := by
  induction a with
  | nil => simp [escList]
  | cons x t ih => simp [escList, ih]

lemma escBytes_length (b : Nat) :
    (escBytes b).length =
      1 + (if b == kRfc1662Delimiter || b == kRfc1662Escape then 1 else 0) := by
  unfold escBytes
  rcases Decidable.em (b = kRfc1662Delimiter ∨ b = kRfc1662Escape) with h | h
  · rcases h with h | h <;> simp [h]
  · have h1 : b ≠ kRfc1662Delimiter := fun hc => h (Or.inl hc)
    have h2 : b ≠ kRfc1662Escape := fun hc => h (Or.inr hc)
    simp [h1, h2]

lemma escList_length (l : List Nat) :
    (escList l).length = l.length + specialCount l := by
  induction l with
  | nil => simp [escList, specialCount]
  | cons b t ih =>
      by_cases hbe : (b == kRfc1662Delimiter || b == kRfc1662Escape) = true
      · simp only [escList, List.length_append, ih, escBytes_length, specialCount,
          List.countP_cons, List.length_cons, if_pos hbe]
        omega
      · simp only [escList, List.length_append, ih, escBytes_length, specialCount,
          List.countP_cons, List.length_cons, if_neg hbe]
        omega

lemma encode_eq (crc : List Nat → Nat) (chunk : List Nat) :
    EncodeRfc1662Frame crc chunk =
      kRfc1662Delimiter ::
        (escList (chunk ++ [((crc chunk % 65536) >>> 8) % 256, (crc chunk % 65536) % 256])
          ++ [kRfc1662Delimiter]) := by
  unfold EncodeRfc1662Frame
  simp only [foldl_insert]
  simp only [insert_eq, escList_append]
  simp [escList]

lemma crc_split (c : Nat) : ((c >>> 8) <<< 8) ||| (c % 256) = c := by
  apply Nat.eq_of_testBit_eq
  intro j
  have h256 : (256 : Nat) = 2 ^ 8 := by norm_num
  rw [Nat.testBit_lor, Nat.testBit_shiftLeft, Nat.testBit_shiftRight, h256,
    Nat.testBit_mod_two_pow]
  by_cases hj : 8 ≤ j
  · have hj2 : ¬ j < 8 := by omega
    have hj3 : 8 + (j - 8) = j := by omega
    simp [hj, hj2, hj3]
  · have hj2 : j < 8 := by omega
    simp [hj, hj2]

lemma decodeSteps_nil (crc : List Nat → Nat) (s : DecoderState) :
    decodeSteps crc s [] = (s, []) := rfl

lemma decodeSteps_cons (crc : List Nat → Nat) (s : DecoderState) (b : Nat)
    (rest : List Nat) :
    decodeSteps crc s (b :: rest) =
      ((decodeSteps crc (decodeByte crc s b).1 rest).1,
        (decodeByte crc s b).2.toList ++ (decodeSteps crc (decodeByte crc s b).1 rest).2) :=
  rfl

lemma decodeSteps_append (crc : List Nat → Nat) (xs ys : List Nat) :
    ∀ s : DecoderState,
      decodeSteps crc s (xs ++ ys) =
        ((decodeSteps crc (decodeSteps crc s xs).1 ys).1,
          (decodeSteps crc s xs).2 ++ (decodeSteps crc (decodeSteps crc s xs).1 ys).2) := by
  induction xs with
  | nil => intro s; simp [decodeSteps_nil]
  | cons b t ih =>
      intro s
      simp only [List.cons_append, decodeSteps_cons, ih]
      simp

lemma decodeByte_reset_delim (crc : List Nat → Nat) (f : List Nat) :
    decodeByte crc ⟨ReceiveState.Reset, f⟩ kRfc1662Delimiter =
      (⟨ReceiveState.InFrame, f⟩, none) := by
  simp [decodeByte]

lemma decodeByte_reset_other (crc : List Nat → Nat) (f : List Nat) {b : Nat}
    (hb : b ≠ kRfc1662Delimiter) :
    decodeByte crc ⟨ReceiveState.Reset, f⟩ b = (⟨ReceiveState.Reset, f⟩, none) := by
  simp [decodeByte, hb]

lemma decodeByte_inframe_esc (crc : List Nat → Nat) (f : List Nat) :
    decodeByte crc ⟨ReceiveState.InFrame, f⟩ kRfc1662Escape =
      (⟨ReceiveState.InEscape, f⟩, none) := by
  simp [decodeByte, kRfc1662Delimiter, kRfc1662Escape]

lemma decodeByte_inframe_plain (crc : List Nat → Nat) (f : List Nat) {b : Nat}
    (hb1 : b ≠ kRfc1662Delimiter) (hb2 : b ≠ kRfc1662Escape)
    (hlen : f.length ≤ kMaxFrameSize) :
    decodeByte crc ⟨ReceiveState.InFrame, f⟩ b =
      (⟨ReceiveState.InFrame, f ++ [b]⟩, none) := by
  simp [decodeByte, hb1, hb2, Nat.not_lt.2 hlen]

lemma decodeByte_inframe_long (crc : List Nat → Nat) (f : List Nat) {b : Nat}
    (hb1 : b ≠ kRfc1662Delimiter) (hb2 : b ≠ kRfc1662Escape)
    (hlen : kMaxFrameSize < f.length) :
    decodeByte crc ⟨ReceiveState.InFrame, f⟩ b =
      (⟨ReceiveState.Reset, []⟩, some (DecodeResult.discarded DiscardReason.longFrame)) := by
  simp [decodeByte, hb1, hb2, hlen]

lemma decodeByte_inescape_ok (crc : List Nat → Nat) (f : List Nat) {b : Nat}
    (hs : b = kRfc1662Delimiter ∨ b = kRfc1662Escape) :
    decodeByte crc ⟨ReceiveState.InEscape, f⟩ b =
      (⟨ReceiveState.InFrame, f ++ [b]⟩, none) := by
  rcases hs with h | h <;> simp [decodeByte, h]

lemma decodeByte_inescape_bad (crc : List Nat → Nat) (f : List Nat) {b : Nat}
    (h1 : b ≠ kRfc1662Delimiter) (h2 : b ≠ kRfc1662Escape) :
    decodeByte crc ⟨ReceiveState.InEscape, f⟩ b =
      (⟨ReceiveState.Reset, []⟩,
        some (DecodeResult.discarded DiscardReason.invalidEscape)) := by
  simp [decodeByte, h1, h2]

lemma decodeByte_close (crc : List Nat → Nat) (P : List Nat) (hi lo : Nat) :
    decodeByte crc ⟨ReceiveState.InFrame, P ++ [hi, lo]⟩ kRfc1662Delimiter =
      (⟨ReceiveState.Reset, []⟩,
        some (if (hi <<< 8 ||| lo) = crc P % 65536
          then DecodeResult.validFrame P
          else DecodeResult.discarded DiscardReason.crcMismatch)) := by
  have h2 : 2 ≤ (P ++ [hi, lo]).length := by simp
  have e1 : (P ++ [hi, lo]).length - 2 = P.length := by simp
  have e2 : (P ++ [hi, lo]).length - 1 = P.length + 1 := by simp
  have g1 : (P ++ [hi, lo]).getD P.length 0 = hi := by
    rw [List.getD_eq_getElem?_getD, List.getElem?_append_right (Nat.le_refl _)]
    simp
  have g2 : (P ++ [hi, lo]).getD (P.length + 1) 0 = lo := by
    rw [List.getD_eq_getElem?_getD, List.getElem?_append_right (by omega)]
    simp
  have g3 : (P ++ [hi, lo]).take P.length = P := List.take_left P [hi, lo]
  unfold decodeByte
  simp only [e1, e2, g1, g2, g3, if_pos h2]
  simp only [eq_self_iff_true, if_true]
  split <;> rfl

lemma decodeSteps_cons_none (crc : List Nat → Nat) {s s1 : DecoderState} {b : Nat}
    (h : decodeByte crc s b = (s1, none)) (rest : List Nat) :
    decodeSteps crc s (b :: rest) = decodeSteps crc s1 rest := by
  rw [decodeSteps_cons, h]
  rcases hx : decodeSteps crc s1 rest with ⟨s2, evs⟩
  simp [hx]

lemma decodeSteps_cons_some (crc : List Nat → Nat) {s s1 : DecoderState} {b : Nat}
    {ev : DecodeResult} (h : decodeByte crc s b = (s1, some ev)) (rest : List Nat) :
    decodeSteps crc s (b :: rest) =
      ((decodeSteps crc s1 rest).1, ev :: (decodeSteps crc s1 rest).2) := by
  rw [decodeSteps_cons, h]
  rcases hx : decodeSteps crc s1 rest with ⟨s2, evs⟩
  simp [hx]

lemma feed_escList (crc : List Nat → Nat) :
    ∀ P buf : List Nat, buf.length + P.length ≤ kMaxFrameSize + 1 →
      decodeSteps crc ⟨ReceiveState.InFrame, buf⟩ (escList P) =
        (⟨ReceiveState.InFrame, buf ++ P⟩, []) := by
  intro P
  induction P with
  | nil => intro buf _; simp [escList, decodeSteps_nil]
  | cons b t ih =>
      intro buf hlen
      have hlen2 : buf.length + t.length + 1 ≤ kMaxFrameSize + 1 := by
        simp only [List.length_cons] at hlen
        omega
      by_cases hs : b = kRfc1662Delimiter ∨ b = kRfc1662Escape
      · have he : escList (b :: t) = kRfc1662Escape :: (b :: escList t) := by
          simp [escList, escBytes, if_pos hs]
        rw [he, decodeSteps_cons_none crc (decodeByte_inframe_esc crc buf) _,
          decodeSteps_cons_none crc (decodeByte_inescape_ok crc buf hs) _,
          ih (buf ++ [b]) (by simp only [List.length_append, List.length_singleton]; omega)]
        simp
      · have hb1 : b ≠ kRfc1662Delimiter := fun hc => hs (Or.inl hc)
        have hb2 : b ≠ kRfc1662Escape := fun hc => hs (Or.inr hc)
        have he : escList (b :: t) = b :: escList t := by
          simp [escList, escBytes, if_neg hs]
        have hbl : buf.length ≤ kMaxFrameSize := by omega
        rw [he, decodeSteps_cons_none crc (decodeByte_inframe_plain crc buf hb1 hb2 hbl) _,
          ih (buf ++ [b]) (by simp only [List.length_append, List.length_singleton]; omega)]
        simp

lemma escList_eq_self {l : List Nat}
    (h : ∀ b ∈ l, b ≠ kRfc1662Delimiter ∧ b ≠ kRfc1662Escape) : escList l = l := by
  induction l with
  | nil => simp [escList]
  | cons b t ih =>
      have hb := h b (by simp)
      have hs : ¬ (b = kRfc1662Delimiter ∨ b = kRfc1662Escape) := by
        rcases hb with ⟨h1, h2⟩
        intro hc
        rcases hc with hc | hc
        · exact h1 hc
        · exact h2 hc
      simp [escList, escBytes, if_neg hs, ih (fun x hx => h x (by simp [hx]))]

lemma feed_reset (crc : List Nat → Nat) :
    ∀ G f : List Nat, (∀ b ∈ G, b ≠ kRfc1662Delimiter) →
      decodeSteps crc ⟨ReceiveState.Reset, f⟩ G = (⟨ReceiveState.Reset, f⟩, []) := by
  intro G
  induction G with
  | nil => intro f _; simp [decodeSteps_nil]
  | cons b t ih =>
      intro f hG
      have hb : b ≠ kRfc1662Delimiter := hG b (by simp)
      rw [decodeSteps_cons_none crc (decodeByte_reset_other crc f hb) _,
        ih f (fun x hx => hG x (by simp [hx]))]

lemma feed_special (crc : List Nat → Nat) :
    ∀ k : Nat, ∀ buf : List Nat,
      decodeSteps crc ⟨ReceiveState.InFrame, buf⟩ (List.replicate (2 * k) kRfc1662Escape) =
        (⟨ReceiveState.InFrame, buf ++ List.replicate k kRfc1662Escape⟩, []) := by
  intro k
  induction k with
  | zero => intro buf; simp [decodeSteps_nil]
  | succ n ih =>
      intro buf
      have h2 : 2 * (n + 1) = (2 * n) + 1 + 1 := by omega
      rw [h2, List.replicate_succ, List.replicate_succ,
        decodeSteps_cons_none crc (decodeByte_inframe_esc crc buf) _,
        decodeSteps_cons_none crc (decodeByte_inescape_ok crc buf (Or.inr rfl)) _,
        ih (buf ++ [kRfc1662Escape]), List.append_assoc]
      simp [List.replicate_succ]

lemma hi_byte_eq (c : Nat) (hc : c < 65536) : (c >>> 8) % 256 = c >>> 8 := by
  rw [Nat.shiftRight_eq_div_pow]
  have h28 : (2 : Nat) ^ 8 = 256 := by norm_num
  rw [h28]
  have : c / 256 < 256 := by omega
  exact Nat.mod_eq_of_lt this

lemma decode_encode (crc : List Nat → Nat) (P : List Nat)
    (hlen : P.length ≤ kMaxFrameSize - 1) :
    decodeSteps crc ⟨ReceiveState.Reset, []⟩ (EncodeRfc1662Frame crc P) =
      (⟨ReceiveState.Reset, []⟩, [DecodeResult.validFrame P]) := by
  have hmax : (1 : Nat) ≤ kMaxFrameSize := by norm_num [kMaxFrameSize]
  have hc : crc P % 65536 < 65536 := Nat.mod_lt _ (by norm_num)
  have hcond : ((((crc P % 65536) >>> 8) % 256) <<< 8) ||| ((crc P % 65536) % 256) =
      crc P % 65536 := by
    rw [hi_byte_eq _ hc]
    exact crc_split _
  have hclose := decodeByte_close crc P (((crc P % 65536) >>> 8) % 256)
    ((crc P % 65536) % 256)
  rw [if_pos hcond] at hclose
  rw [encode_eq, decodeSteps_cons_none crc (decodeByte_reset_delim crc []) _,
    decodeSteps_append,
    feed_escList crc (P ++ [((crc P % 65536) >>> 8) % 256, (crc P % 65536) % 256]) []
      (by simp only [List.length_nil, List.length_append, List.length_cons,
            List.length_singleton, Nat.zero_add]
          omega)]
  simp only [List.nil_append]
  rw [decodeSteps_cons_some crc hclose [], decodeSteps_nil]

lemma feed_plain (crc : List Nat → Nat) (l buf : List Nat)
    (h : ∀ b ∈ l, b ≠ kRfc1662Delimiter ∧ b ≠ kRfc1662Escape)
    (hlen : buf.length + l.length ≤ kMaxFrameSize + 1) :
    decodeSteps crc ⟨ReceiveState.InFrame, buf⟩ l =
      (⟨ReceiveState.InFrame, buf ++ l⟩, []) := by
  have h2 := feed_escList crc l buf hlen
  rwa [escList_eq_self h] at h2

lemma decode_encode_at_max (crc : List Nat → Nat) (P : List Nat)
    (hlen : P.length = kMaxFrameSize)
    (hlo : (crc P % 65536) % 256 ≠ kRfc1662Delimiter ∧
      (crc P % 65536) % 256 ≠ kRfc1662Escape) :
    decodeSteps crc ⟨ReceiveState.Reset, []⟩ (EncodeRfc1662Frame crc P) =
      (⟨ReceiveState.InFrame, []⟩, [DecodeResult.discarded DiscardReason.longFrame]) := by
  have hsplit : P ++ [((crc P % 65536) >>> 8) % 256, (crc P % 65536) % 256] =
      (P ++ [((crc P % 65536) >>> 8) % 256]) ++ [(crc P % 65536) % 256] := by
    simp
  have hlo2 : ¬ ((crc P % 65536) % 256 = kRfc1662Delimiter ∨
      (crc P % 65536) % 256 = kRfc1662Escape) := by
    rcases hlo with ⟨hl1, hl2⟩
    intro hc
    rcases hc with hc | hc
    · exact hl1 hc
    · exact hl2 hc
  have hfeed := feed_escList crc (P ++ [((crc P % 65536) >>> 8) % 256]) []
    (by simp only [List.length_nil, List.length_append, List.length_singleton,
          Nat.zero_add, hlen]
        omega)
  rw [encode_eq, decodeSteps_cons_none crc (decodeByte_reset_delim crc []) _,
    hsplit, escList_append, List.append_assoc, decodeSteps_append, hfeed]
  simp only [List.nil_append]
  have hesc : escList [(crc P % 65536) % 256] = [(crc P % 65536) % 256] := by
    simp [escList, escBytes, if_neg hlo2]
  rw [hesc]
  have hlong := decodeByte_inframe_long crc (P ++ [((crc P % 65536) >>> 8) % 256])
    hlo.1 hlo.2
    (by simp only [List.length_append, List.length_singleton, hlen]; omega)
  simp only [List.singleton_append]
  rw [decodeSteps_cons_some crc hlong _,
    decodeSteps_cons_none crc (decodeByte_reset_delim crc []) _, decodeSteps_nil]

lemma decodeByte_inv (crc : List Nat → Nat) (s : DecoderState) (b : Nat)
    (h : s.receive_state = ReceiveState.Reset → s.frame = []) :
    (decodeByte crc s b).1.receive_state = ReceiveState.Reset →
      (decodeByte crc s b).1.frame = [] := by
  rcases s with ⟨rs, f⟩
  cases rs <;> simp only [decodeByte] <;> split_ifs <;> simp_all

lemma reset_inv (crc : List Nat → Nat) :
    ∀ (stream : List Nat) (s : DecoderState),
      (s.receive_state = ReceiveState.Reset → s.frame = []) →
      ((decodeSteps crc s stream).1.receive_state = ReceiveState.Reset →
        (decodeSteps crc s stream).1.frame = []) := by
  intro stream
  induction stream with
  | nil => intro s h; simpa [decodeSteps_nil] using h
  | cons b rest ih =>
      intro s h
      rw [decodeSteps_cons]
      exact ih (decodeByte crc s b).1 (decodeByte_inv crc s b h)

/-- C1 (counterexample): the round-trip claim as stated — for every payload
of bytes of length up to the maximum frame size of 1 MiB, feeding the
encoder's output to the decoder started in `Reset` yields exactly one valid
frame carrying that payload and no discard diagnostics — is false on the
code: for the all-zero payload of length exactly `kMaxFrameSize` (with a
checksum function whose value has a non-special low byte) the size check
`frame.size() > kMaxFrameSize` fires while the checksum low byte is being
buffered, and the decoder reports a long-frame discard instead. -/
theorem roundtrip_claim_false :
    ¬ (∀ (crc : List Nat → Nat) (P : List Nat), (∀ b ∈ P, b < 256) →
        P.length ≤ kMaxFrameSize →
        DecodeFile crc (EncodeRfc1662Frame crc P) =
          ([DecodeResult.validFrame P], true)) := by
  intro h
  have hb : ∀ b ∈ List.replicate kMaxFrameSize (0 : Nat), b < 256 := by
    intro b hbm
    rw [List.eq_of_mem_replicate hbm]
    norm_num
  have hl : (List.replicate kMaxFrameSize (0 : Nat)).length ≤ kMaxFrameSize := by simp
  have heval := decode_encode_at_max (fun _ => (0 : Nat)) (List.replicate kMaxFrameSize 0)
    (by simp) (by constructor <;> decide)
  have hcontra := h (fun _ => (0 : Nat)) (List.replicate kMaxFrameSize 0) hb hl
  unfold DecodeFile at hcontra
  rw [heval] at hcontra
  simp at hcontra

/-- C1 (amended): for every payload of bytes of length at most
`kMaxFrameSize - 1` (one below the 1 MiB maximum), feeding the byte
sequence produced by `EncodeRfc1662Frame` into the decoder started in the
`Reset` state yields exactly one valid frame whose payload equals the
input, and no discard diagnostics, and `DecodeFile` returns true. -/
theorem roundtrip_below_max (crc : List Nat → Nat) (P : List Nat)
    (hb : ∀ b ∈ P, b < 256) (hlen : P.length ≤ kMaxFrameSize - 1) :
    DecodeFile crc (EncodeRfc1662Frame crc P) =
      ([DecodeResult.validFrame P], true) := by
  unfold DecodeFile
  rw [decode_encode crc P hlen]

/-- Witness for the amended round-trip: a concrete payload containing a
delimiter and an escape byte round-trips through the codec with the
modelled CRC-16. -/
theorem roundtrip_below_max_witness :
    (∀ b ∈ [0x11, 0x7e, 0x7d], b < 256) ∧
    DecodeFile GenerateCrc16 (EncodeRfc1662Frame GenerateCrc16 [0x11, 0x7e, 0x7d]) =
      ([DecodeResult.validFrame [0x11, 0x7e, 0x7d]], true) :=
  ⟨by decide, roundtrip_below_max GenerateCrc16 [0x11, 0x7e, 0x7d] (by decide) (by decide)⟩

/-- C2: the bounded-memory claim is right and the code is wrong.  From the
state reached after a frame-opening delimiter, a delimiter-free stream of
escape-escape byte pairs grows the accumulation buffer to
`kMaxFrameSize + 2` bytes (and, continuing, to any size) without a single
discard diagnostic: the `frame.size() > kMaxFrameSize` check is tested
only after the escape test, and the `InEscape` state appends
unconditionally, so escaped bytes bypass the size bound entirely. -/
theorem oversized_check_bypassed_by_escapes :
    decodeByte GenerateCrc16 ⟨ReceiveState.Reset, []⟩ kRfc1662Delimiter =
      (⟨ReceiveState.InFrame, []⟩, none) ∧
    (List.replicate (2 * (kMaxFrameSize + 2)) kRfc1662Escape).count kRfc1662Delimiter = 0 ∧
    decodeSteps GenerateCrc16 ⟨ReceiveState.InFrame, []⟩
        (List.replicate (2 * (kMaxFrameSize + 2)) kRfc1662Escape) =
      (⟨ReceiveState.InFrame, List.replicate (kMaxFrameSize + 2) kRfc1662Escape⟩, []) ∧
    kMaxFrameSize < (List.replicate (kMaxFrameSize + 2) kRfc1662Escape).length := by
  refine ⟨decodeByte_reset_delim _ _, ?hcount, ?hrun, ?hlen⟩
  · rw [List.count_replicate, if_neg (by decide)]
  · have h := feed_special GenerateCrc16 (kMaxFrameSize + 2) []
    simpa using h
  · simp only [List.length_replicate]
    omega

/-- C3: encoder functional correctness as a refinement — the encoder built
from the source equals, on every checksum function and every chunk, the
frame layout described by the spec (delimiter, escaped payload bytes in
order, escaped checksum high then low byte, delimiter); its length is
payload length + 2 + (number of delimiter- or escape-valued bytes among
payload and checksum bytes) + 2; and the output starts and ends with the
delimiter.  No hypotheses: any byte sequence of any length is encodable. -/
theorem encode_matches_spec_layout (crc : List Nat → Nat) (chunk : List Nat) :
    EncodeRfc1662Frame crc chunk = encodeSpecFrame crc chunk ∧
    (EncodeRfc1662Frame crc chunk).length =
      chunk.length + 2 +
        specialCount (chunk ++ [(crc chunk % 65536) / 256, (crc chunk % 65536) % 256])
        + 2 ∧
    (EncodeRfc1662Frame crc chunk).head? = some kRfc1662Delimiter ∧
    (EncodeRfc1662Frame crc chunk).getLast? = some kRfc1662Delimiter := by
  have hc : crc chunk % 65536 < 65536 := Nat.mod_lt _ (by norm_num)
  have hhi : ((crc chunk % 65536) >>> 8) % 256 = (crc chunk % 65536) / 256 := by
    rw [hi_byte_eq _ hc, Nat.shiftRight_eq_div_pow]
  refine ⟨?heq, ?hlen, ?hhead, ?hlast⟩
  · rw [encode_eq, hhi]
    unfold encodeSpecFrame
    simp [escList_append, escList]
  · rw [encode_eq, hhi]
    simp only [List.length_cons, List.length_append, escList_length]
    simp only [List.length_append, List.length_cons, List.length_nil]
  · rw [encode_eq]
    rfl
  · rw [encode_eq, ← List.cons_append]
    exact List.getLast?_concat _

lemma decodeSteps_append_run (crc : List Nat → Nat) {s s1 s2 : DecoderState}
    {xs ys : List Nat} {e1 e2 : List DecodeResult}
    (h1 : decodeSteps crc s xs = (s1, e1)) (h2 : decodeSteps crc s1 ys = (s2, e2)) :
    decodeSteps crc s (xs ++ ys) = (s2, e1 ++ e2) := by
  rw [decodeSteps_append, h1]
  simp [h2]

/-- C4 (counterexample): the resynchronization claim as stated — for all
payloads and all garbage segments, the stream garbage, frame A, garbage,
frame B decodes to exactly ValidFrame(A) then ValidFrame(B) up to discard
notices — is false on the code: garbage that itself contains a complete
checksum-valid frame produces a third ValidFrame. -/
theorem resync_claim_false :
    ¬ (∀ (crc : List Nat → Nat) (G1 G2 A B : List Nat),
        (∀ b ∈ G1, b < 256) → (∀ b ∈ G2, b < 256) →
        (∀ b ∈ A, b < 256) → (∀ b ∈ B, b < 256) →
        A.length ≤ kMaxFrameSize → B.length ≤ kMaxFrameSize →
        (DecodeFile crc (G1 ++ EncodeRfc1662Frame crc A ++
            (G2 ++ EncodeRfc1662Frame crc B))).1.filter (fun r => r.isValid) =
          [DecodeResult.validFrame A, DecodeResult.validFrame B]) := by
  intro h
  have hcontra := h (fun _ => 0) [] (EncodeRfc1662Frame (fun _ => 0) []) [] []
    (by decide) (by decide) (by decide) (by decide) (by decide) (by decide)
  exact absurd hcontra (by decide)

/-- C4 (amended): for garbage segments that contain no delimiter byte, the
stream garbage, Encode(A), garbage, Encode(B) decodes to exactly
ValidFrame(A) then ValidFrame(B) — and in this case with no discard
notices at all — for payloads below the maximum frame size. -/
theorem resync_delimiter_free_garbage (crc : List Nat → Nat) (G1 G2 A B : List Nat)
    (hG1 : ∀ b ∈ G1, b ≠ kRfc1662Delimiter) (hG2 : ∀ b ∈ G2, b ≠ kRfc1662Delimiter)
    (hA : ∀ b ∈ A, b < 256) (hB : ∀ b ∈ B, b < 256)
    (hAl : A.length ≤ kMaxFrameSize - 1) (hBl : B.length ≤ kMaxFrameSize - 1) :
    DecodeFile crc
        (G1 ++ EncodeRfc1662Frame crc A ++ (G2 ++ EncodeRfc1662Frame crc B)) =
      ([DecodeResult.validFrame A, DecodeResult.validFrame B], true) := by
  have hs : G1 ++ EncodeRfc1662Frame crc A ++ (G2 ++ EncodeRfc1662Frame crc B) =
      G1 ++ (EncodeRfc1662Frame crc A ++ (G2 ++ EncodeRfc1662Frame crc B)) := by
    simp [List.append_assoc]
  have h1 := feed_reset crc G1 [] hG1
  have h2 := decode_encode crc A hAl
  have h3 := feed_reset crc G2 [] hG2
  have h4 := decode_encode crc B hBl
  have h34 := decodeSteps_append_run crc h3 h4
  have h234 := decodeSteps_append_run crc h2 h34
  have h1234 := decodeSteps_append_run crc h1 h234
  unfold DecodeFile
  rw [hs, h1234]
  simp

/-- Witness for the amended resynchronization claim at concrete garbage and
payloads. -/
theorem resync_delimiter_free_garbage_witness :
    (∀ b ∈ [0x41, 0x7d], b ≠ kRfc1662Delimiter) ∧
    DecodeFile GenerateCrc16
        ([0x41, 0x7d] ++ EncodeRfc1662Frame GenerateCrc16 [0x10] ++
          ([0x00] ++ EncodeRfc1662Frame GenerateCrc16 [])) =
      ([DecodeResult.validFrame [0x10], DecodeResult.validFrame []], true) :=
  ⟨by decide,
    resync_delimiter_free_garbage GenerateCrc16 [0x41, 0x7d] [0x00] [0x10] []
      (by decide) (by decide) (by decide) (by decide) (by decide) (by decide)⟩

/-- C5: when the decoder in `InFrame` receives a delimiter with fewer than
2 buffered bytes it reports a short-frame discard, clears the buffer and
returns to `Reset`; with exactly 2 buffered bytes the frame is not short —
it is treated as an empty payload plus a 2-byte checksum and is
checksum-validated. -/
theorem short_frame_threshold (crc : List Nat → Nat) (buf : List Nat) :
    (buf.length < 2 →
      decodeByte crc ⟨ReceiveState.InFrame, buf⟩ kRfc1662Delimiter =
        (⟨ReceiveState.Reset, []⟩,
          some (DecodeResult.discarded DiscardReason.shortFrame))) ∧
    (buf.length = 2 →
      decodeByte crc ⟨ReceiveState.InFrame, buf⟩ kRfc1662Delimiter =
        (⟨ReceiveState.Reset, []⟩,
          some (if ((buf.getD 0 0) <<< 8 ||| buf.getD 1 0) = crc [] % 65536
            then DecodeResult.validFrame []
            else DecodeResult.discarded DiscardReason.crcMismatch))) := by
  constructor
  · intro hlt
    have h2 : ¬ (2 ≤ buf.length) := by omega
    simp [decodeByte, h2]
  · intro h2
    rcases List.length_eq_two.mp h2 with ⟨x, y, rfl⟩
    have h := decodeByte_close crc [] x y
    simpa using h

/-- Witness for the short-frame threshold: a 1-byte buffer is discarded as
short, a 2-byte buffer goes to checksum validation of the empty payload. -/
theorem short_frame_threshold_witness :
    (([0x42] : List Nat).length < 2 ∧
      decodeByte GenerateCrc16 ⟨ReceiveState.InFrame, [0x42]⟩ kRfc1662Delimiter =
        (⟨ReceiveState.Reset, []⟩,
          some (DecodeResult.discarded DiscardReason.shortFrame))) ∧
    (([0x12, 0x34] : List Nat).length = 2 ∧
      decodeByte GenerateCrc16 ⟨ReceiveState.InFrame, [0x12, 0x34]⟩ kRfc1662Delimiter =
        (⟨ReceiveState.Reset, []⟩,
          some (if (((0x12 : Nat)) <<< 8 ||| 0x34) = GenerateCrc16 [] % 65536
            then DecodeResult.validFrame []
            else DecodeResult.discarded DiscardReason.crcMismatch))) :=
  ⟨⟨by decide, (short_frame_threshold GenerateCrc16 [0x42]).1 (by decide)⟩,
    ⟨by decide, (short_frame_threshold GenerateCrc16 [0x12, 0x34]).2 (by decide)⟩⟩

/-- C6 (counterexample): the spec's concrete scenario is false on the code.
For any checksum function giving 0xabcd on the payload 01 7e 02, the
encoder does not produce the spec's nine-byte sequence (which contains a
stray escape byte 0x7d before the checksum), and decoding that nine-byte
sequence yields an invalid-escape discard, not a valid frame. -/
theorem concrete_scenario_claim_false :
    ¬ (∀ crc : List Nat → Nat, crc [0x01, 0x7e, 0x02] % 65536 = 0xabcd →
        EncodeRfc1662Frame crc [0x01, 0x7e, 0x02] =
          [0x7e, 0x01, 0x7d, 0x7e, 0x02, 0x7d, 0xab, 0xcd, 0x7e] ∧
        DecodeFile crc [0x7e, 0x01, 0x7d, 0x7e, 0x02, 0x7d, 0xab, 0xcd, 0x7e] =
          ([DecodeResult.validFrame [0x01, 0x7e, 0x02]], true)) := by
  intro h
  have hcontra := h (fun _ => 0xabcd) (by decide)
  exact absurd hcontra.1 (by decide)

/-- C6 (amended): with checksum 0xabcd the payload 01 7e 02 encodes to
the eight-byte sequence 7e 01 7d 7e 02 ab cd 7e (no escape before the
checksum bytes, which are not delimiter- or escape-valued), and decoding
that exact sequence returns exactly ValidFrame of the payload. -/
theorem concrete_scenario_eight_bytes (crc : List Nat → Nat)
    (hcrc : crc [0x01, 0x7e, 0x02] % 65536 = 0xabcd) :
    EncodeRfc1662Frame crc [0x01, 0x7e, 0x02] =
      [0x7e, 0x01, 0x7d, 0x7e, 0x02, 0xab, 0xcd, 0x7e] ∧
    DecodeFile crc [0x7e, 0x01, 0x7d, 0x7e, 0x02, 0xab, 0xcd, 0x7e] =
      ([DecodeResult.validFrame [0x01, 0x7e, 0x02]], true) := by
  have henc : EncodeRfc1662Frame crc [0x01, 0x7e, 0x02] =
      [0x7e, 0x01, 0x7d, 0x7e, 0x02, 0xab, 0xcd, 0x7e] := by
    rw [encode_eq, hcrc]
    decide
  refine ⟨henc, ?hdec⟩
  rw [← henc]
  unfold DecodeFile
  rw [decode_encode crc [0x01, 0x7e, 0x02] (by decide)]

/-- Witness for the amended concrete scenario with the constant checksum
function returning 0xabcd. -/
theorem concrete_scenario_eight_bytes_witness :
    ((fun _ : List Nat => (0xabcd : Nat)) [0x01, 0x7e, 0x02] % 65536 = 0xabcd) ∧
    EncodeRfc1662Frame (fun _ => 0xabcd) [0x01, 0x7e, 0x02] =
      [0x7e, 0x01, 0x7d, 0x7e, 0x02, 0xab, 0xcd, 0x7e] :=
  ⟨by decide, (concrete_scenario_eight_bytes (fun _ => 0xabcd) (by decide)).1⟩

/-- C7: in the `InEscape` state, a delimiter or escape byte is appended
literally to the buffer and the state returns to `InFrame`; any other byte
yields an invalid-escape discard, clears the buffer and returns the state
to `Reset`.  Stated as an equation over all input bytes, so these are the
only transitions out of `InEscape`. -/
theorem in_escape_transitions (crc : List Nat → Nat) (buf : List Nat) (b : Nat) :
    decodeByte crc ⟨ReceiveState.InEscape, buf⟩ b =
      if b = kRfc1662Delimiter ∨ b = kRfc1662Escape then
        (⟨ReceiveState.InFrame, buf ++ [b]⟩, none)
      else
        (⟨ReceiveState.Reset, []⟩,
          some (DecodeResult.discarded DiscardReason.invalidEscape)) := rfl

/-- C8 (counterexample): the claim that the accumulation buffer never
contains delimiter- or escape-valued bytes is false on the code: after the
wire bytes 7e 7d 7e (open frame, escape, escaped delimiter) the buffer
contains the delimiter value 0x7e, put there by the un-escaping
transition. -/
theorem buffer_invariant_claim_false :
    ¬ (∀ (crc : List Nat → Nat) (stream : List Nat), (∀ b ∈ stream, b < 256) →
        ∀ x ∈ (decodeSteps crc ⟨ReceiveState.Reset, []⟩ stream).1.frame,
          x ≠ kRfc1662Delimiter ∧ x ≠ kRfc1662Escape) := by
  intro h
  have hx := h GenerateCrc16 [0x7e, 0x7d, 0x7e] (by decide) 0x7e (by decide)
  exact hx.1 rfl

/-- C8 (amended): a delimiter- or escape-valued wire byte is never
appended to the buffer by any state other than `InEscape`: outside
`InEscape`, processing such a byte leaves the buffer unchanged (the byte is
consumed as a control byte) or clears it.  Delimiter and escape values
enter the buffer only through the `InEscape` un-escaping transition, so
buffered special bytes always come from two-byte escape sequences. -/
theorem special_byte_append_only_unescape (crc : List Nat → Nat) (s : DecoderState)
    (b : Nat) (hb : b = kRfc1662Delimiter ∨ b = kRfc1662Escape)
    (hst : s.receive_state ≠ ReceiveState.InEscape) :
    (decodeByte crc s b).1.frame = s.frame ∨ (decodeByte crc s b).1.frame = [] := by
  rcases s with ⟨rs, f⟩
  cases rs
  · rcases hb with h | h <;> simp [decodeByte, h, kRfc1662Delimiter, kRfc1662Escape]
  · rcases hb with h | h
    · subst h
      simp only [decodeByte]
      split_ifs <;> simp
    · subst h
      simp [decodeByte, kRfc1662Delimiter, kRfc1662Escape]
  · exact absurd rfl hst

/-- Witness for the amended buffer-content claim: a delimiter arriving in
`InFrame` does not get appended (here it closes the frame and the buffer
is cleared). -/
theorem special_byte_append_only_unescape_witness :
    (((0x7e : Nat) = kRfc1662Delimiter ∨ (0x7e : Nat) = kRfc1662Escape) ∧
      (⟨ReceiveState.InFrame, [0x01, 0x02]⟩ : DecoderState).receive_state ≠
        ReceiveState.InEscape) ∧
    ((decodeByte GenerateCrc16 ⟨ReceiveState.InFrame, [0x01, 0x02]⟩ 0x7e).1.frame =
        ([0x01, 0x02] : List Nat) ∨
      (decodeByte GenerateCrc16 ⟨ReceiveState.InFrame, [0x01, 0x02]⟩ 0x7e).1.frame = []) :=
  ⟨⟨by decide, by decide⟩,
    special_byte_append_only_unescape GenerateCrc16 ⟨ReceiveState.InFrame, [0x01, 0x02]⟩
      0x7e (by decide) (by decide)⟩

/-- C9: if the stream ends while the decoder is mid-frame (`InFrame` after
an opening delimiter plus ordinary bytes, or `InEscape` after a trailing
escape byte), the accumulated bytes produce no event at all — no
ValidFrame and no discard — and `DecodeFile` still returns true; only the
events of the completed frames before them are reported. -/
theorem eof_drops_partial_frame (crc : List Nat → Nat) (A junk : List Nat)
    (hA : ∀ b ∈ A, b < 256) (hAl : A.length ≤ kMaxFrameSize - 1)
    (hj : ∀ b ∈ junk, b ≠ kRfc1662Delimiter ∧ b ≠ kRfc1662Escape)
    (hjl : junk.length ≤ kMaxFrameSize + 1) :
    decodeSteps crc ⟨ReceiveState.Reset, []⟩
        (EncodeRfc1662Frame crc A ++ (kRfc1662Delimiter :: junk)) =
      (⟨ReceiveState.InFrame, junk⟩, [DecodeResult.validFrame A]) ∧
    DecodeFile crc (EncodeRfc1662Frame crc A ++ (kRfc1662Delimiter :: junk)) =
      ([DecodeResult.validFrame A], true) ∧
    decodeSteps crc ⟨ReceiveState.Reset, []⟩
        (EncodeRfc1662Frame crc A ++
          (kRfc1662Delimiter :: (junk ++ [kRfc1662Escape]))) =
      (⟨ReceiveState.InEscape, junk⟩, [DecodeResult.validFrame A]) ∧
    DecodeFile crc
        (EncodeRfc1662Frame crc A ++
          (kRfc1662Delimiter :: (junk ++ [kRfc1662Escape]))) =
      ([DecodeResult.validFrame A], true) := by
  have h2 := decode_encode crc A hAl
  have hjunk : decodeSteps crc ⟨ReceiveState.InFrame, []⟩ junk =
      (⟨ReceiveState.InFrame, junk⟩, []) := by
    have h := feed_plain crc junk [] hj (by simpa using hjl)
    simpa using h
  have hopen : decodeSteps crc ⟨ReceiveState.Reset, []⟩ (kRfc1662Delimiter :: junk) =
      (⟨ReceiveState.InFrame, junk⟩, []) := by
    rw [decodeSteps_cons_none crc (decodeByte_reset_delim crc []) _, hjunk]
  have part1 := decodeSteps_append_run crc h2 hopen
  have hesc : decodeSteps crc ⟨ReceiveState.InFrame, junk⟩ [kRfc1662Escape] =
      (⟨ReceiveState.InEscape, junk⟩, []) := by
    rw [decodeSteps_cons_none crc (decodeByte_inframe_esc crc junk) _, decodeSteps_nil]
  have hjunk2 : decodeSteps crc ⟨ReceiveState.InFrame, []⟩ (junk ++ [kRfc1662Escape]) =
      (⟨ReceiveState.InEscape, junk⟩, []) := by
    have h := decodeSteps_append_run crc hjunk hesc
    simpa using h
  have hopen2 : decodeSteps crc ⟨ReceiveState.Reset, []⟩
      (kRfc1662Delimiter :: (junk ++ [kRfc1662Escape])) =
      (⟨ReceiveState.InEscape, junk⟩, []) := by
    rw [decodeSteps_cons_none crc (decodeByte_reset_delim crc []) _, hjunk2]
  have part2 := decodeSteps_append_run crc h2 hopen2
  refine ⟨by simpa using part1, ?hd1, by simpa using part2, ?hd2⟩
  · unfold DecodeFile
    rw [part1]
    simp
  · unfold DecodeFile
    rw [part2]
    simp

/-- Witness for the end-of-stream behaviour: one encoded frame followed by
an unterminated frame opening. -/
theorem eof_drops_partial_frame_witness :
    ((∀ b ∈ [(0x05 : Nat)], b < 256) ∧
      (∀ b ∈ [(0x01 : Nat)], b ≠ kRfc1662Delimiter ∧ b ≠ kRfc1662Escape)) ∧
    DecodeFile GenerateCrc16
        (EncodeRfc1662Frame GenerateCrc16 [0x05] ++ (kRfc1662Delimiter :: [0x01])) =
      ([DecodeResult.validFrame [0x05]], true) :=
  ⟨⟨by decide, by decide⟩,
    (eof_drops_partial_frame GenerateCrc16 [0x05] [0x01]
      (by decide) (by decide) (by decide) (by decide)).2.1⟩

/-- C10: whenever the decoder run from the initial state is in `Reset` the
accumulation buffer is empty, and every transition into `Reset` from
another state clears the buffer — so no clearing is needed on the
`Reset`-to-`InFrame` transition. -/
theorem reset_state_buffer_empty (crc : List Nat → Nat) :
    (∀ stream : List Nat,
      (decodeSteps crc ⟨ReceiveState.Reset, []⟩ stream).1.receive_state =
          ReceiveState.Reset →
        (decodeSteps crc ⟨ReceiveState.Reset, []⟩ stream).1.frame = []) ∧
    (∀ (s : DecoderState) (b : Nat),
      s.receive_state ≠ ReceiveState.Reset →
      (decodeByte crc s b).1.receive_state = ReceiveState.Reset →
      (decodeByte crc s b).1.frame = []) := by
  constructor
  · intro stream
    exact reset_inv crc stream ⟨ReceiveState.Reset, []⟩ (fun _ => rfl)
  · intro s b hs
    exact decodeByte_inv crc s b (fun hc => absurd hc hs)

/-- Witness for the Reset-state invariant: a short all-plain stream leaves
the decoder in `Reset` with an empty buffer, and an invalid escape
transition into `Reset` clears a non-empty buffer. -/
theorem reset_state_buffer_empty_witness :
    ((decodeSteps GenerateCrc16 ⟨ReceiveState.Reset, []⟩ [0x41, 0x42]).1.receive_state =
        ReceiveState.Reset ∧
      (decodeSteps GenerateCrc16 ⟨ReceiveState.Reset, []⟩ [0x41, 0x42]).1.frame = []) ∧
    ((⟨ReceiveState.InEscape, [0x07]⟩ : DecoderState).receive_state ≠
        ReceiveState.Reset ∧
      (decodeByte GenerateCrc16 ⟨ReceiveState.InEscape, [0x07]⟩ 0x00).1.frame = []) :=
  ⟨⟨by decide, (reset_state_buffer_empty GenerateCrc16).1 [0x41, 0x42] (by decide)⟩,
    ⟨by decide,
      (reset_state_buffer_empty GenerateCrc16).2 ⟨ReceiveState.InEscape, [0x07]⟩ 0x00
        (by decide) (by decide)⟩⟩

end Datvideo
